import Mathlib

/-!
Verification development for the release-plan engine of
`create-release-branch` (file `src/release-specification.ts`).

The TypeScript code is shallowly embedded below.  Pure helpers from the
repository that are not part of the given sources (`src/semver.ts`,
`src/project.ts`, `src/misc-utils.ts`) and the external `semver` / `yaml` /
`@metamask/utils` collaborators are modelled from the specification, as
noted on each definition.
-/

set_option autoImplicit false

namespace CreateReleaseBranch

/-- Modelled from the spec: the SemVer value type, a version with major,
minor and patch parts.  The spec restricts directive versions to strict
three-component versions, so pre-release and build metadata are not
modelled. -/
structure SemVer where
  major : Nat
  minor : Nat
  patch : Nat
deriving DecidableEq, Repr

/-- Modelled from the spec: the `compare` method of the SemVer value type.
Returns -1, 0 or 1 according to the lexicographic order on
(major, minor, patch). -/
def SemVer.compare (a b : SemVer) : Int :=
  if a.major < b.major then -1
  else if b.major < a.major then 1
  else if a.minor < b.minor then -1
  else if b.minor < a.minor then 1
  else if a.patch < b.patch then -1
  else if b.patch < a.patch then 1
  else 0

/-- Claim-side notion of one version being strictly below another,
stated the way the spec talks about versions (lexicographic order). -/
def SemVer.ltSpec (a b : SemVer) : Prop :=
  a.major < b.major ∨
    (a.major = b.major ∧
      (a.minor < b.minor ∨ (a.minor = b.minor ∧ a.patch < b.patch)))

instance : DecidablePred (fun p : SemVer × SemVer => SemVer.ltSpec p.1 p.2) :=
  fun _ => by unfold SemVer.ltSpec; infer_instance

instance (a b : SemVer) : Decidable (SemVer.ltSpec a b) := by
  unfold SemVer.ltSpec; infer_instance

/-- Modelled from the spec: `diff(a, b) === "major"` of the external
`semver` package.  For plain three-component versions the difference is
classified as major exactly when the major parts differ. -/
def diffIsMajor (a b : SemVer) : Bool :=
  a.major ≠ b.major

/-- Splitting a character list at every occurrence of a separator, the
way `String.prototype.split` with a one-character separator does. -/
def splitOnCharAux (sep : Char) : List Char → List Char → List String
  | [], acc => [String.mk acc.reverse]
  | c :: rest, acc =>
    if c = sep then String.mk acc.reverse :: splitOnCharAux sep rest []
    else splitOnCharAux sep rest (c :: acc)

/-- `s.split(sep)` for a one-character separator. -/
def splitOnChar (sep : Char) (s : String) : List String :=
  splitOnCharAux sep s.data []

/-- The numeric value of a list of decimal digits. -/
def digitsToNat (ds : List Char) : Nat :=
  ds.foldl (fun acc c => acc * 10 + (c.toNat - 48)) 0

/-- One numeric identifier of a version string: digits only, no leading
zero (part of the spec-modelled strict semantic-version grammar). -/
def parseNumericIdentifier (s : String) : Option Nat :=
  match s.data with
  | [] => none
  | c :: rest =>
    if (c :: rest).all Char.isDigit then
      if c = '0' ∧ rest ≠ [] then none
      else some (digitsToNat (c :: rest))
    else none

/-- Modelled from the spec: parsing a strict three-component semantic
version string such as "1.2.3" (the repository wraps `semver.parse`). -/
def parseSemver (s : String) : Option SemVer :=
  match splitOnChar '.' s with
  | [a, b, c] =>
    match parseNumericIdentifier a, parseNumericIdentifier b,
        parseNumericIdentifier c with
    | some major, some minor, some patch => some ⟨major, minor, patch⟩
    | _, _, _ => none
  | _ => none

/-- The raw value of one `packages` entry of the parsed document, of
TypeScript type `string | null` (`null` is the skip directive). -/
inductive RawDirective where
  | skip
  | str (s : String)
deriving DecidableEq, Repr

/-- `INTENTIONALLY_SKIP_PACKAGE_DIRECTIVE` from the source. -/
def INTENTIONALLY_SKIP_PACKAGE_DIRECTIVE : String := "intentionally-skip"

/-- `semver.parse` applied to a raw directive value: `none` for the null
directive and for strings that are not strict versions. -/
def semverOf : RawDirective → Option SemVer
  | RawDirective.skip => none
  | RawDirective.str s => parseSemver s

/-- `isValidSemver(versionSpecifierOrDirective)` from the source. -/
def isValidSemverDirective (dir : RawDirective) : Bool :=
  (semverOf dir).isSome

/-- `hasProperty(IncrementableVersionParts, versionSpecifierOrDirective)`
from the source: the directive is one of the three bump-kind names. -/
def isBumpKind : RawDirective → Bool
  | RawDirective.skip => false
  | RawDirective.str s => s = "major" ∨ s = "minor" ∨ s = "patch"

/-- JavaScript truthiness of a directive value: `null` and the empty
string are falsy, every other string is truthy. -/
def RawDirective.isTruthy : RawDirective → Bool
  | RawDirective.skip => false
  | RawDirective.str s => s ≠ ""

/-- Truthiness of `unvalidatedReleaseSpecification.packages[name]`: an
absent key is `undefined`, which is falsy. -/
def directiveTruthy : Option RawDirective → Bool
  | none => false
  | some d => d.isTruthy

/-- Modelled from the spec: the validated package manifest
(`name`, `version`, `dependencies`, `peerDependencies`); dependency
mappings go from package name to version-range string. -/
structure Manifest where
  name : String
  version : SemVer
  dependencies : List (String × String)
  peerDependencies : List (String × String)
deriving DecidableEq, Repr

/-- Modelled from the spec: a workspace package with its manifest and the
externally computed changed-since-last-release flag. -/
structure Package where
  validatedManifest : Manifest
  hasChangesSinceLatestRelease : Bool
deriving DecidableEq, Repr

/-- Modelled from the spec: the `Project` snapshot.  `workspacePackages`
is a name-keyed record, embedded as an association list in insertion
order. -/
structure Project where
  rootPackage : Package
  workspacePackages : List (String × Package)
deriving DecidableEq, Repr

/-- `hasProperty(dependencies, name)` on a dependency record. -/
def hasDependencyKey (deps : List (String × String)) (key : String) : Bool :=
  deps.any (fun e => e.1 = key)

/-- `Object.keys({...dependencies, ...peerDependencies})`: the keys of the
first record in order, then the new keys of the second. -/
def mergedDependencyKeys (deps peerDeps : List (String × String)) : List String :=
  let depKeys := deps.map Prod.fst
  depKeys ++ (peerDeps.map Prod.fst).filter (fun k => decide (k ∉ depKeys))

/-- The distinguishable validation errors pushed onto `errors` by
`validateReleaseSpecification`, tagged by their message shape. -/
inductive ValError where
  | unknownPackage (name : String) (lineNumber : Int)
  | invalidDirective (name : String) (dir : RawDirective) (lineNumber : Int)
  | alreadyAtVersion (name : String) (version : SemVer) (lineNumber : Int)
  | atGreaterVersion (name : String) (currentVersion : SemVer) (lineNumber : Int)
  | missingDependents (name : String) (missing : List String)
  | missingDependencies (name : String) (missing : List String)
deriving DecidableEq, Repr

/-- A JavaScript runtime exception escaping the validator. -/
inductive JsCrash where
  | typeError
deriving DecidableEq, Repr

instance : DecidableEq (Except JsCrash (List ValError)) := fun a b =>
  match a, b with
  | Except.ok x, Except.ok y => decidable_of_iff (x = y) (by simp)
  | Except.error x, Except.error y => decidable_of_iff (x = y) (by simp)
  | Except.ok _, Except.error _ => isFalse (by simp)
  | Except.error _, Except.ok _ => isFalse (by simp)

/-- The body of the `dependentNames` filter of the source: the candidate
package (looked up by key) declares the target as a dependency or peer
dependency.  This is also the wording of validation rule 4 of the
spec. -/
def declaresDependencyOn (project : Project)
    (dependentName targetName : String) : Bool :=
  match project.workspacePackages.lookup dependentName with
  | some possibleDependent =>
    hasDependencyKey possibleDependent.validatedManifest.dependencies
        targetName ||
      hasDependencyKey
        possibleDependent.validatedManifest.peerDependencies targetName
  | none => false

/-- The body of the `changedDependentNames` filter of the source (and of
the optional-chained lookup of the dependency check): the package is a
workspace package with changes since its last release. -/
def packageChanged (project : Project) (name : String) : Bool :=
  match project.workspacePackages.lookup name with
  | some p => p.hasChangesSinceLatestRelease
  | none => false

/-- The unknown-package check (first check of the `forEach` body). -/
def unknownErrorsFor (project : Project) (name : String) (ln : Int) :
    List ValError :=
  if (project.workspacePackages.lookup name).isNone then
    [ValError.unknownPackage name ln]
  else []

/-- The invalid-directive-syntax check (second check of the `forEach`
body). -/
def invalidErrorsFor (name : String) (dir : RawDirective) (ln : Int) :
    List ValError :=
  if dir ≠ RawDirective.skip ∧
      dir ≠ RawDirective.str INTENTIONALLY_SKIP_PACKAGE_DIRECTIVE ∧
      isBumpKind dir = false ∧ isValidSemverDirective dir = false then
    [ValError.invalidDirective name dir ln]
  else []

/-- The explicit-version comparison check (third check of the `forEach`
body), reached with the parsed version and the package found for the
entry. -/
def compareErrorsFor (name : String) (v : SemVer) (pkg : Package) (ln : Int) :
    List ValError :=
  if SemVer.compare v pkg.validatedManifest.version = 0 then
    [ValError.alreadyAtVersion name v ln]
  else if SemVer.compare v pkg.validatedManifest.version < 0 then
    [ValError.atGreaterVersion name pkg.validatedManifest.version ln]
  else []

/-- The `dependentNames` / `changedDependentNames` /
`missingDependentNames` filter chain of the source: workspace package
keys that declare the entry package as a dependency or peer dependency,
restricted to changed packages, minus those with a truthy entry. -/
def missingDependentNamesFor (project : Project)
    (docPackages : List (String × RawDirective)) (name : String) :
    List String :=
  ((((project.workspacePackages.map Prod.fst).filter
        (fun possibleDependentName =>
          declaresDependencyOn project possibleDependentName name)).filter
      (fun possibleDependentName =>
        packageChanged project possibleDependentName)).filter
    (fun dependentName => !directiveTruthy (docPackages.lookup dependentName)))

/-- The missing-major-bump-dependents check (fourth check of the `forEach`
body).  `majorBump` is the already evaluated condition
`versionSpecifierOrDirective === "major" || (isValidSemver(...) &&
diff(...) === "major")`. -/
def dependentErrorsFor (project : Project)
    (docPackages : List (String × RawDirective)) (name : String)
    (majorBump : Bool) : List ValError :=
  if majorBump then
    if 0 < (missingDependentNamesFor project docPackages name).length then
      [ValError.missingDependents name
          (missingDependentNamesFor project docPackages name)]
    else []
  else []

/-- The `missingDependencies` filter of the source (fifth check of the
`forEach` body): dependency and peer-dependency keys of the entry
package that are changed workspace packages without a truthy entry. -/
def missingDependenciesFor (project : Project)
    (docPackages : List (String × RawDirective)) (pkg : Package) :
    List String :=
  (mergedDependencyKeys pkg.validatedManifest.dependencies
      pkg.validatedManifest.peerDependencies).filter
    (fun dependency =>
      packageChanged project dependency &&
        !directiveTruthy (docPackages.lookup dependency))

/-- The missing-changed-dependencies error push, guarded by
`changedPackage && versionSpecifierOrDirective &&
(hasProperty(IncrementableVersionParts, ...) || isValidSemver(...))`. -/
def dependencyErrorsFor (project : Project)
    (docPackages : List (String × RawDirective)) (name : String)
    (changedPackage : Option Package) (dir : RawDirective) : List ValError :=
  match changedPackage with
  | none => []
  | some pkg =>
    if dir.isTruthy && (isBumpKind dir || isValidSemverDirective dir) then
      if 0 < (missingDependenciesFor project docPackages pkg).length then
        [ValError.missingDependencies name
            (missingDependenciesFor project docPackages pkg)]
      else []
    else []

/-- The body of the `forEach` over `unvalidatedReleaseSpecification.packages`
for one entry.  When the directive is a valid version string and the
package is unknown, the source dereferences `changedPackage` (which is
`undefined`) to compare versions, so the run dies with a `TypeError`. -/
def validateEntry (project : Project)
    (docPackages : List (String × RawDirective)) (ln : Int) (name : String)
    (dir : RawDirective) : Except JsCrash (List ValError) :=
  let changedPackage := project.workspacePackages.lookup name
  match semverOf dir, changedPackage with
  | some _, none => Except.error JsCrash.typeError
  | some v, some pkg =>
    Except.ok
      (unknownErrorsFor project name ln ++ invalidErrorsFor name dir ln ++
        compareErrorsFor name v pkg ln ++
        dependentErrorsFor project docPackages name
          (decide (dir = RawDirective.str "major") ||
            diffIsMajor pkg.validatedManifest.version v) ++
        dependencyErrorsFor project docPackages name changedPackage dir)
  | none, _ =>
    Except.ok
      (unknownErrorsFor project name ln ++ invalidErrorsFor name dir ln ++
        dependentErrorsFor project docPackages name
          (decide (dir = RawDirective.str "major")) ++
        dependencyErrorsFor project docPackages name changedPackage dir)

/-- The `forEach` loop over the document entries, threading the entry
index into the line-number computation
`indexOfFirstUsableLine + index + 2`.  A thrown `TypeError` aborts the
whole loop, as a JavaScript exception would. -/
def collectErrorsAux (project : Project)
    (docPackages : List (String × RawDirective)) (firstUsable : Int) :
    Nat → List (String × RawDirective) → Except JsCrash (List ValError)
  | _, [] => Except.ok []
  | index, entry :: rest =>
    match validateEntry project docPackages (firstUsable + (index : Int) + 2)
        entry.1 entry.2 with
    | Except.error c => Except.error c
    | Except.ok errs =>
      match collectErrorsAux project docPackages firstUsable (index + 1) rest with
      | Except.error c => Except.error c
      | Except.ok restErrs => Except.ok (errs ++ restErrs)

/-- All validation errors of the document, in entry order. -/
def collectErrors (project : Project)
    (docPackages : List (String × RawDirective)) (firstUsable : Int) :
    Except JsCrash (List ValError) :=
  collectErrorsAux project docPackages firstUsable 0 docPackages

/-- The three bump kinds of `IncrementableVersionParts`. -/
inductive IncrementableVersionParts where
  | major
  | minor
  | patch
deriving DecidableEq, Repr

/-- A value of the validated `ReleaseSpecification.packages` mapping.
`invalidCast` stands for the `semver.parse(...) as SemVer` type cast in
the source storing `null` when the string does not parse (unreachable on
the success path). -/
inductive SpecValue where
  | bump (part : IncrementableVersionParts)
  | exact (v : SemVer)
  | invalidCast
deriving DecidableEq, Repr

/-- The bump kind denoted by one of the three bump-kind strings. -/
def bumpOf (s : String) : IncrementableVersionParts :=
  if s = "major" then IncrementableVersionParts.major
  else if s = "minor" then IncrementableVersionParts.minor
  else IncrementableVersionParts.patch

/-- The final `reduce` of the source: strip skip and intentionally-skip
entries and resolve the remaining directives to their enum member or
parsed version. -/
def buildReleaseSpecification :
    List (String × RawDirective) → List (String × SpecValue)
  | [] => []
  | (packageName, dir) :: rest =>
    match dir with
    | RawDirective.skip => buildReleaseSpecification rest
    | RawDirective.str s =>
      if s = INTENTIONALLY_SKIP_PACKAGE_DIRECTIVE then
        buildReleaseSpecification rest
      else if s = "major" ∨ s = "minor" ∨ s = "patch" then
        (packageName, SpecValue.bump (bumpOf s)) :: buildReleaseSpecification rest
      else
        match parseSemver s with
        | some v => (packageName, SpecValue.exact v) :: buildReleaseSpecification rest
        | none => (packageName, SpecValue.invalidCast) :: buildReleaseSpecification rest

/-- The validated release specification returned on success. -/
structure ReleaseSpecification where
  packages : List (String × SpecValue)
  path : String
deriving DecidableEq, Repr

/-- The observable result of running `validateReleaseSpecification` on an
already parsed document. -/
inductive ValidationOutcome where
  | crashed (c : JsCrash)
  | specificationError (errors : List ValError)
  | ok (spec : ReleaseSpecification)
deriving DecidableEq, Repr

/-- The line starts with the "#" character. -/
def startsWithHash (line : String) : Bool :=
  match line.data with
  | [] => false
  | c :: _ => c = '#'

/-- `/^#|[ ]+/u.test(line)`: the line starts with "#" or contains at
least one space anywhere. -/
def isSkippedLine (line : String) : Bool :=
  startsWithHash line || line.data.contains ' '

/-- `Array.prototype.findIndex`: the index of the first element
satisfying the predicate, or -1. -/
def jsFindIndex (p : String → Bool) : List String → Int
  | [] => -1
  | line :: rest =>
    if p line then 0
    else
      let r := jsFindIndex p rest
      if r = -1 then -1 else r + 1

/-- `indexOfFirstUsableLine` over the already split lines. -/
def indexOfFirstUsableLineOfLines (lines : List String) : Int :=
  jsFindIndex (fun line => !isSkippedLine line) lines

/-- `releaseSpecificationContents.split("\n").findIndex(...)` from the
source. -/
def indexOfFirstUsableLine (contents : String) : Int :=
  indexOfFirstUsableLineOfLines (splitOnChar '\n' contents)

/-- The line number the source attributes to the entry at a 0-based
`index`: `indexOfFirstUsableLine + index + 2`. -/
def entryLineNumber (contents : String) (index : Nat) : Int :=
  indexOfFirstUsableLine contents + (index : Int) + 2

/-- `validateReleaseSpecification` on a document that already passed the
YAML/shape stage: `contents` is the raw file text (used for line
numbers), `docPackages` the typed `packages` record. -/
def validateReleaseSpecification (project : Project) (contents : String)
    (docPackages : List (String × RawDirective)) (path : String) :
    ValidationOutcome :=
  match collectErrors project docPackages (indexOfFirstUsableLine contents) with
  | Except.error c => ValidationOutcome.crashed c
  | Except.ok [] =>
    ValidationOutcome.ok
      { packages := buildReleaseSpecification docPackages, path := path }
  | Except.ok (e :: rest) => ValidationOutcome.specificationError (e :: rest)

/-- The result of `YAML.parse` as a structured value; `Option` at the
call site models a parse exception with `none`. -/
inductive YamlValue where
  | null
  | bool (b : Bool)
  | num (n : Int)
  | str (s : String)
  | arr (items : List YamlValue)
  | map (entries : List (String × YamlValue))

/-- Modelled from the spec: `isObject` of `@metamask/utils` - a non-null,
non-array value of object type. -/
def isObject : YamlValue → Bool
  | YamlValue.map _ => true
  | _ => false

/-- `unvalidatedReleaseSpecification.packages !== undefined`. -/
def hasPackagesKey : YamlValue → Bool
  | YamlValue.map entries => (entries.lookup "packages").isSome
  | _ => false

/-- Whether a value is itself a mapping (used by the claim, not by the
source). -/
def YamlValue.isMapping : YamlValue → Bool
  | YamlValue.map _ => true
  | _ => false

/-- The guard of the source that throws the malformed-document error:
the parse threw (`none`), or the parse result is not an object, or it
has no `packages` key. -/
def malformedDocumentCheck (parseResult : Option YamlValue) : Bool :=
  match parseResult with
  | none => true
  | some v => !isObject v || !hasPackagesKey v

/-- The changed workspace packages offered by the template generator. -/
def changedWorkspacePackages (project : Project) : List (String × Package) :=
  project.workspacePackages.filter
    (fun e => e.2.hasChangesSinceLatestRelease)

/-- Failure of the template generator. -/
inductive TemplateError where
  | emptyReleaseSet
deriving DecidableEq, Repr

/-- The structural content of the generated template document: its
`packages` mapping (the instructional header above it is presentational
per the spec and is not modelled). -/
structure ReleaseSpecTemplate where
  packages : List (String × RawDirective)
deriving DecidableEq, Repr

/-- `generateReleaseSpecificationTemplateForMonorepo`: fails when no
workspace package changed, otherwise lists every changed package with
the skip directive. -/
def generateReleaseSpecificationTemplateForMonorepo (project : Project) :
    Except TemplateError ReleaseSpecTemplate :=
  if (changedWorkspacePackages project).length = 0 then
    Except.error TemplateError.emptyReleaseSet
  else
    Except.ok
      { packages :=
          (changedWorkspacePackages project).map
            (fun e => (e.2.validatedManifest.name, RawDirective.skip)) }

/-- From the claim (amended): the workspace packages that declare the
given package as a dependency or peer dependency, have changes since
their last release, and have no truthy entry in the raw document. -/
def claimedMissingDependents (project : Project)
    (docPackages : List (String × RawDirective)) (name : String) :
    List String :=
  (project.workspacePackages.map Prod.fst).filter
    (fun d =>
      declaresDependencyOn project d name && packageChanged project d &&
        !directiveTruthy (docPackages.lookup d))

/-- From the claim (amended): the dependencies and peer dependencies of
the package that are changed workspace packages and have no truthy entry
in the raw document. -/
def claimedMissingDependencies (project : Project)
    (docPackages : List (String × RawDirective)) (pkg : Package) :
    List String :=
  (mergedDependencyKeys pkg.validatedManifest.dependencies
      pkg.validatedManifest.peerDependencies).filter
    (fun d => packageChanged project d && !directiveTruthy (docPackages.lookup d))

/-- From the claim: the directive resolves to a major bump - it is the
bump kind "major", or an explicit version whose difference from the
current version of the (existing) package is classified as major. -/
def majorBumpRequested (project : Project) (name : String)
    (dir : RawDirective) : Bool :=
  decide (dir = RawDirective.str "major") ||
    (match semverOf dir, project.workspacePackages.lookup name with
      | some v, some pkg => diffIsMajor pkg.validatedManifest.version v
      | _, _ => false)

/-- From the claim: a leading instructional line - it begins with the
comment marker or consists only of whitespace. -/
def isInstructionalLine (line : String) : Bool :=
  startsWithHash line || line.data.all Char.isWhitespace

/-- From the claim: the number of leading instructional lines. -/
def countLeadingInstructionalLines (lines : List String) : Nat :=
  (lines.takeWhile isInstructionalLine).length

/-- From the claim: the line number of the entry at 0-based `index`
should be the count of leading instructional lines plus the 1-based
ordinal position of the entry. -/
def claimedEntryLineNumber (contents : String) (index : Nat) : Int :=
  (countLeadingInstructionalLines (splitOnChar '\n' contents) : Int) +
    ((index : Int) + 1)

/-- A workspace package fixture with the given name, version, changed
flag and dependencies. -/
def mkPackage (name : String) (version : SemVer) (changed : Bool)
    (deps : List (String × String)) : Package :=
  { validatedManifest :=
      { name := name, version := version, dependencies := deps,
        peerDependencies := [] },
    hasChangesSinceLatestRelease := changed }

/-- A root package fixture (never part of `workspacePackages`). -/
def sampleRoot : Package := mkPackage "monorepo" ⟨1, 0, 0⟩ false []

/-- Fixture: workspace packages `a` (changed, no dependencies) and `b`
(changed, depends on `a`). -/
def projAB : Project :=
  { rootPackage := sampleRoot,
    workspacePackages :=
      [("a", mkPackage "a" ⟨1, 0, 0⟩ true []),
        ("b", mkPackage "b" ⟨1, 0, 0⟩ true [("a", "^1.0.0")])] }

/-- Fixture: `projAB` plus an unchanged package `p` with no
dependencies. -/
def projABP : Project :=
  { rootPackage := sampleRoot,
    workspacePackages :=
      [("a", mkPackage "a" ⟨1, 0, 0⟩ true []),
        ("b", mkPackage "b" ⟨1, 0, 0⟩ true [("a", "^1.0.0")]),
        ("p", mkPackage "p" ⟨1, 0, 0⟩ false [])] }

/-- Fixture: a project in which no workspace package has changed. -/
def projUnchanged : Project :=
  { rootPackage := sampleRoot,
    workspacePackages := [("a", mkPackage "a" ⟨1, 0, 0⟩ false [])] }

/-- Raw document for the C1 counterexample: `a` gets a major bump and its
changed dependent `b` has the non-null, falsy entry "". -/
def docEmptyDependent : List (String × RawDirective) :=
  [("a", RawDirective.str "major"), ("b", RawDirective.str "")]

/-- Raw document for the C2 counterexample: `b` is released with a patch
bump and its changed dependency `a` has the non-null, falsy entry "". -/
def docEmptyDependency : List (String × RawDirective) :=
  [("b", RawDirective.str "patch"), ("a", RawDirective.str "")]

/-- Raw document with three independent problems: an unknown package, an
invalid directive on `p`, and a major bump of `a` whose changed
dependent `b` is missing. -/
def docThreeProblems : List (String × RawDirective) :=
  [("ghost", RawDirective.skip), ("p", RawDirective.str "bogus"),
    ("a", RawDirective.str "major")]

/-- The file text corresponding to `docThreeProblems`. -/
def contentsThreeProblems : String :=
  "packages:\n  ghost: null\n  p: bogus\n  a: major"

/-- Raw document that validates successfully against `projAB`. -/
def docSuccess : List (String × RawDirective) :=
  [("a", RawDirective.str "1.0.1"), ("b", RawDirective.str "patch")]

/-- The file text corresponding to `docSuccess`. -/
def contentsSuccess : String := "packages:\n  a: 1.0.1\n  b: patch"

/-- Raw document with a single entry for an unknown package whose
directive is a valid version string. -/
def docGhostVersion : List (String × RawDirective) :=
  [("ghost", RawDirective.str "1.2.3")]

/-- The embedded comparison returns 0 exactly on equal versions. -/
theorem SemVer.compare_eq_zero_iff (a b : SemVer) :
    SemVer.compare a b = 0 ↔ a = b := by
  cases a; cases b
  simp only [SemVer.compare, SemVer.mk.injEq]
  split_ifs <;> simp_all <;> omega

/-- The embedded comparison is negative exactly when the first version is
lexicographically below the second. -/
theorem SemVer.compare_neg_iff (a b : SemVer) :
    SemVer.compare a b < 0 ↔ SemVer.ltSpec a b := by
  cases a; cases b
  simp only [SemVer.compare, SemVer.ltSpec]
  split_ifs <;> simp_all <;> omega

/-- The embedded comparison is positive exactly when the second version
is lexicographically below the first. -/
theorem SemVer.compare_pos_iff (a b : SemVer) :
    0 < SemVer.compare a b ↔ SemVer.ltSpec b a := by
  cases a; cases b
  simp only [SemVer.compare, SemVer.ltSpec]
  split_ifs <;> simp_all <;> omega

/-- A directive that is a bump kind or a valid version string is truthy
(the bump-kind names and version strings are non-empty). -/
theorem isTruthy_of_bump_or_semver : ∀ {dir : RawDirective},
    (isBumpKind dir || isValidSemverDirective dir) = true →
      dir.isTruthy = true := by
  intro dir h
  rcases dir with _ | s
  · exact absurd h (by decide)
  · rcases eq_or_ne s "" with rfl | hs
    · exact absurd h (by decide)
    · simp [RawDirective.isTruthy, hs]

/-- The `changedPackage && versionSpecifierOrDirective && (... || ...)`
guard collapses to its bump-or-version part, because those directives
are always truthy. -/
theorem truthyGuard_iff (dir : RawDirective) :
    (dir.isTruthy && (isBumpKind dir || isValidSemverDirective dir)) =
      (isBumpKind dir || isValidSemverDirective dir) := by
  cases h : (isBumpKind dir || isValidSemverDirective dir)
  · simp
  · simp [isTruthy_of_bump_or_semver h]

/-- Membership in the unknown-package check output. -/
theorem mem_unknownErrorsFor {project : Project} {name : String} {ln : Int}
    {e : ValError} :
    e ∈ unknownErrorsFor project name ln ↔
      (project.workspacePackages.lookup name = none ∧
        e = ValError.unknownPackage name ln) := by
  unfold unknownErrorsFor
  rcases h : project.workspacePackages.lookup name with _ | pkg <;> simp [h]

/-- Membership in the invalid-directive check output. -/
theorem mem_invalidErrorsFor {name : String} {dir : RawDirective} {ln : Int}
    {e : ValError} :
    e ∈ invalidErrorsFor name dir ln ↔
      (dir ≠ RawDirective.skip ∧
        dir ≠ RawDirective.str INTENTIONALLY_SKIP_PACKAGE_DIRECTIVE ∧
        isBumpKind dir = false ∧ isValidSemverDirective dir = false ∧
        e = ValError.invalidDirective name dir ln) := by
  unfold invalidErrorsFor
  split <;> simp_all

/-- Membership in the explicit-version comparison check output. -/
theorem mem_compareErrorsFor {name : String} {v : SemVer} {pkg : Package}
    {ln : Int} {e : ValError} :
    e ∈ compareErrorsFor name v pkg ln ↔
      ((SemVer.compare v pkg.validatedManifest.version = 0 ∧
          e = ValError.alreadyAtVersion name v ln) ∨
        (SemVer.compare v pkg.validatedManifest.version < 0 ∧
          e = ValError.atGreaterVersion name pkg.validatedManifest.version ln)) := by
  unfold compareErrorsFor
  split_ifs with h1 h2 <;> simp_all

/-- The filter chain of the dependents check equals the claim-side
single-pass filter. -/
theorem missingDependentNames_eq (project : Project)
    (docPackages : List (String × RawDirective)) (name : String) :
    missingDependentNamesFor project docPackages name =
      claimedMissingDependents project docPackages name := by
  unfold missingDependentNamesFor claimedMissingDependents
  simp only [List.filter_filter]
  apply List.filter_congr
  intro d _
  cases declaresDependencyOn project d name <;>
    cases packageChanged project d <;>
    cases directiveTruthy (docPackages.lookup d) <;> rfl

/-- Membership in the missing-dependents check output. -/
theorem mem_dependentErrorsFor {project : Project}
    {docPackages : List (String × RawDirective)} {name : String}
    {majorBump : Bool} {e : ValError} :
    e ∈ dependentErrorsFor project docPackages name majorBump ↔
      (majorBump = true ∧
        claimedMissingDependents project docPackages name ≠ [] ∧
        e = ValError.missingDependents name
          (claimedMissingDependents project docPackages name)) := by
  unfold dependentErrorsFor
  rw [missingDependentNames_eq project docPackages name]
  cases majorBump
  · simp
  · rw [if_pos rfl]
    rcases h : claimedMissingDependents project docPackages name with _ | ⟨d, rest⟩
    · simp [h]
    · simp [h]

/-- Membership in the missing-dependencies check output. -/
theorem mem_dependencyErrorsFor {project : Project}
    {docPackages : List (String × RawDirective)} {name : String}
    {changedPackage : Option Package} {dir : RawDirective} {e : ValError} :
    e ∈ dependencyErrorsFor project docPackages name changedPackage dir ↔
      (∃ pkg, changedPackage = some pkg ∧
        (isBumpKind dir || isValidSemverDirective dir) = true ∧
        claimedMissingDependencies project docPackages pkg ≠ [] ∧
        e = ValError.missingDependencies name
          (claimedMissingDependencies project docPackages pkg)) := by
  have hsame : ∀ pkg, missingDependenciesFor project docPackages pkg =
      claimedMissingDependencies project docPackages pkg := fun _ => rfl
  unfold dependencyErrorsFor
  rcases changedPackage with _ | pkg
  · simp
  · dsimp only
    rw [hsame, truthyGuard_iff]
    by_cases hg : (isBumpKind dir || isValidSemverDirective dir) = true
    · rw [if_pos hg]
      rcases h : claimedMissingDependencies project docPackages pkg with _ | ⟨d, rest⟩
      · simp [h, hg]
      · simp [h, hg]
    · rw [if_neg hg]
      simp [hg]

/-- Claim C1, as frozen, is false on the code: in `projAB` the package
`b` is a changed workspace dependent of `a` and has the non-null entry ""
in the document, yet a major bump of `a` still records a missing-dependents
error naming `b` (the source tests JavaScript truthiness, not null). -/
theorem c1_counterexample :
    validateEntry projAB docEmptyDependent 3 "a" (RawDirective.str "major") =
      Except.ok [ValError.missingDependents "a" ["b"]] ∧
    docEmptyDependent.lookup "b" = some (RawDirective.str "") ∧
    RawDirective.str "" ≠ RawDirective.skip :=
  ⟨by decide, by decide, by decide⟩

/-- Claim C1 (amended): when entry validation completes without a crash,
a missing-dependents error is recorded exactly when the directive
resolves to a major bump and the set of changed workspace dependents
without a truthy (non-null, non-empty-string) entry is non-empty, and
the error names exactly that set. -/
theorem c1_missing_dependents (project : Project)
    (docPackages : List (String × RawDirective)) (ln : Int) (name : String)
    (dir : RawDirective) (errs : List ValError) (missing : List String)
    (hok : validateEntry project docPackages ln name dir = Except.ok errs) :
    ValError.missingDependents name missing ∈ errs ↔
      (majorBumpRequested project name dir = true ∧
        missing = claimedMissingDependents project docPackages name ∧
        missing ≠ []) := by
  rcases hsv : semverOf dir with _ | v <;>
    rcases hcp : project.workspacePackages.lookup name with _ | pkg <;>
      simp only [validateEntry, hsv, hcp, Except.ok.injEq] at hok
  · subst hok
    simp only [List.mem_append, mem_unknownErrorsFor, mem_invalidErrorsFor,
      mem_dependentErrorsFor, mem_dependencyErrorsFor, majorBumpRequested,
      hsv, hcp, Bool.or_false, ValError.missingDependents.injEq]
    aesop
  · subst hok
    simp only [List.mem_append, mem_unknownErrorsFor, mem_invalidErrorsFor,
      mem_dependentErrorsFor, mem_dependencyErrorsFor, majorBumpRequested,
      hsv, hcp, Bool.or_false, ValError.missingDependents.injEq]
    aesop
  · exact Except.noConfusion hok
  · subst hok
    simp only [List.mem_append, mem_unknownErrorsFor, mem_invalidErrorsFor,
      mem_compareErrorsFor, mem_dependentErrorsFor, mem_dependencyErrorsFor,
      majorBumpRequested, hsv, hcp, ValError.missingDependents.injEq]
    aesop

/-- Witness for the amended claim C1 at a concrete input. -/
theorem c1_missing_dependents_witness :
    ValError.missingDependents "a" ["b"] ∈
        [ValError.missingDependents "a" ["b"]] ↔
      (majorBumpRequested projAB "a" (RawDirective.str "major") = true ∧
        ["b"] = claimedMissingDependents projAB docEmptyDependent "a" ∧
        (["b"] : List String) ≠ []) :=
  c1_missing_dependents projAB docEmptyDependent 3 "a"
    (RawDirective.str "major") [ValError.missingDependents "a" ["b"]] ["b"]
    (by decide)

/-- Claim C2, as frozen, is false on the code: the changed workspace
dependency `a` of `b` has the non-null entry "" in the document, yet
releasing `b` with a patch bump still records a missing-dependencies
error naming `a`. -/
theorem c2_counterexample :
    validateEntry projAB docEmptyDependency 2 "b" (RawDirective.str "patch") =
      Except.ok [ValError.missingDependencies "b" ["a"]] ∧
    docEmptyDependency.lookup "a" = some (RawDirective.str "") ∧
    RawDirective.str "" ≠ RawDirective.skip :=
  ⟨by decide, by decide, by decide⟩

/-- Claim C2 (amended): when entry validation completes without a crash,
a missing-dependencies error is recorded exactly when the entry package
exists, its directive is a bump kind or a valid version string, and the
set of its dependencies and peer dependencies that are changed workspace
packages without a truthy (non-null, non-empty-string) entry is
non-empty; the error names exactly that set. -/
theorem c2_missing_dependencies (project : Project)
    (docPackages : List (String × RawDirective)) (ln : Int) (name : String)
    (dir : RawDirective) (errs : List ValError) (missing : List String)
    (hok : validateEntry project docPackages ln name dir = Except.ok errs) :
    ValError.missingDependencies name missing ∈ errs ↔
      (∃ pkg, project.workspacePackages.lookup name = some pkg ∧
        (isBumpKind dir || isValidSemverDirective dir) = true ∧
        missing = claimedMissingDependencies project docPackages pkg ∧
        missing ≠ []) := by
  rcases hsv : semverOf dir with _ | v <;>
    rcases hcp : project.workspacePackages.lookup name with _ | pkg <;>
      simp only [validateEntry, hsv, hcp, Except.ok.injEq] at hok
  · subst hok
    simp only [List.mem_append, mem_unknownErrorsFor, mem_invalidErrorsFor,
      mem_dependentErrorsFor, mem_dependencyErrorsFor, hcp,
      ValError.missingDependencies.injEq]
    aesop
  · subst hok
    simp only [List.mem_append, mem_unknownErrorsFor, mem_invalidErrorsFor,
      mem_dependentErrorsFor, mem_dependencyErrorsFor, hcp,
      Option.some.injEq, ValError.missingDependencies.injEq]
    aesop
  · exact Except.noConfusion hok
  · subst hok
    simp only [List.mem_append, mem_unknownErrorsFor, mem_invalidErrorsFor,
      mem_compareErrorsFor, mem_dependentErrorsFor, mem_dependencyErrorsFor,
      hcp, Option.some.injEq, ValError.missingDependencies.injEq]
    aesop

/-- Witness for the amended claim C2 at a concrete input. -/
theorem c2_missing_dependencies_witness :
    ValError.missingDependencies "b" ["a"] ∈
        [ValError.missingDependencies "b" ["a"]] ↔
      (∃ pkg, projAB.workspacePackages.lookup "b" = some pkg ∧
        (isBumpKind (RawDirective.str "patch") ||
          isValidSemverDirective (RawDirective.str "patch")) = true ∧
        ["a"] = claimedMissingDependencies projAB docEmptyDependency pkg ∧
        (["a"] : List String) ≠ []) :=
  c2_missing_dependencies projAB docEmptyDependency 2 "b"
    (RawDirective.str "patch") [ValError.missingDependencies "b" ["a"]] ["a"]
    (by decide)

/-- Claim C4, as frozen, is false on the code: an entry for the unknown
package "ghost" with the invalid directive "bogus" records two errors,
not exactly one - the source never skips the remaining rules after the
unknown-package error. -/
theorem c4_counterexample :
    validateEntry projAB [("ghost", RawDirective.str "bogus")] 2 "ghost"
        (RawDirective.str "bogus") =
      Except.ok [ValError.unknownPackage "ghost" 2,
        ValError.invalidDirective "ghost" (RawDirective.str "bogus") 2] ∧
    Except.map List.length
        (validateEntry projAB [("ghost", RawDirective.str "bogus")] 2 "ghost"
          (RawDirective.str "bogus")) = Except.ok 2 :=
  ⟨by decide, by rfl⟩

/-- Claim C4 (amended): for an entry whose package name is unknown, the
validator records the unknown-package error but continues with the
remaining rules; a directive that is also syntactically invalid (not
null, not "intentionally-skip", not a bump kind, not a valid version)
yields exactly one additional error for the same entry. -/
theorem c4_unknown_package_continues (project : Project)
    (docPackages : List (String × RawDirective)) (ln : Int) (name : String)
    (s : String)
    (hunknown : project.workspacePackages.lookup name = none)
    (hskip : s ≠ INTENTIONALLY_SKIP_PACKAGE_DIRECTIVE)
    (hbump : isBumpKind (RawDirective.str s) = false)
    (hsem : parseSemver s = none) :
    validateEntry project docPackages ln name (RawDirective.str s) =
      Except.ok [ValError.unknownPackage name ln,
        ValError.invalidDirective name (RawDirective.str s) ln] := by
  have hmaj : s ≠ "major" := by
    intro h
    subst h
    exact absurd hbump (by decide)
  have hsv : semverOf (RawDirective.str s) = none := hsem
  simp [validateEntry, hsv, hunknown, unknownErrorsFor, invalidErrorsFor,
    dependentErrorsFor, dependencyErrorsFor, isValidSemverDirective, hskip,
    hbump, hmaj]

/-- Witness for the amended claim C4 at a concrete input. -/
theorem c4_unknown_package_continues_witness :
    validateEntry projAB [("ghost", RawDirective.str "wat")] 5 "ghost"
        (RawDirective.str "wat") =
      Except.ok [ValError.unknownPackage "ghost" 5,
        ValError.invalidDirective "ghost" (RawDirective.str "wat") 5] :=
  c4_unknown_package_continues projAB [("ghost", RawDirective.str "wat")] 5
    "ghost" "wat" (by decide) (by decide) (by decide) (by decide)

/-- Claim C6: for an entry of a known package whose directive is an
explicit version, an already-at-this-version error is recorded exactly
when the version equals the current one, an at-a-greater-version error
exactly when it is below the current one, and neither when it is
strictly greater. -/
theorem c6_monotonic_version (project : Project)
    (docPackages : List (String × RawDirective)) (ln : Int) (name : String)
    (dir : RawDirective) (pkg : Package) (v : SemVer) (errs : List ValError)
    (hpkg : project.workspacePackages.lookup name = some pkg)
    (hv : semverOf dir = some v)
    (hok : validateEntry project docPackages ln name dir = Except.ok errs) :
    (ValError.alreadyAtVersion name v ln ∈ errs ↔
      v = pkg.validatedManifest.version) ∧
    (ValError.atGreaterVersion name pkg.validatedManifest.version ln ∈ errs ↔
      SemVer.ltSpec v pkg.validatedManifest.version) ∧
    (SemVer.ltSpec pkg.validatedManifest.version v →
      errs.all
        (fun e =>
          match e with
          | ValError.alreadyAtVersion _ _ _ => false
          | ValError.atGreaterVersion _ _ _ => false
          | _ => true) = true) := by
  simp only [validateEntry, hv, hpkg, Except.ok.injEq] at hok
  subst hok
  refine ⟨?_, ?_, ?_⟩
  · rw [← SemVer.compare_eq_zero_iff v pkg.validatedManifest.version]
    simp only [List.mem_append, mem_unknownErrorsFor, mem_invalidErrorsFor,
      mem_compareErrorsFor, mem_dependentErrorsFor, mem_dependencyErrorsFor,
      hpkg, ValError.alreadyAtVersion.injEq]
    aesop
  · rw [← SemVer.compare_neg_iff v pkg.validatedManifest.version]
    simp only [List.mem_append, mem_unknownErrorsFor, mem_invalidErrorsFor,
      mem_compareErrorsFor, mem_dependentErrorsFor, mem_dependencyErrorsFor,
      hpkg, ValError.atGreaterVersion.injEq]
    aesop
  · intro hgt
    have hpos : 0 < SemVer.compare v pkg.validatedManifest.version :=
      (SemVer.compare_pos_iff v pkg.validatedManifest.version).mpr hgt
    rw [List.all_eq_true]
    intro e he
    simp only [List.append_assoc, List.mem_append, mem_unknownErrorsFor,
      mem_invalidErrorsFor, mem_compareErrorsFor, mem_dependentErrorsFor,
      mem_dependencyErrorsFor] at he
    rcases he with ⟨-, rfl⟩ | ⟨-, -, -, -, rfl⟩ | (⟨h0, -⟩ | ⟨hneg, -⟩) |
        ⟨-, -, rfl⟩ | ⟨pkg', -, -, -, rfl⟩ <;> try rfl
    · omega
    · omega

/-- Witness for claim C6 at a concrete input. -/
theorem c6_monotonic_version_witness :
    (ValError.alreadyAtVersion "a" ⟨1, 0, 0⟩ 2 ∈
        [ValError.alreadyAtVersion "a" ⟨1, 0, 0⟩ 2] ↔
      (⟨1, 0, 0⟩ : SemVer) =
        (mkPackage "a" ⟨1, 0, 0⟩ true []).validatedManifest.version) ∧
    (ValError.atGreaterVersion "a"
          (mkPackage "a" ⟨1, 0, 0⟩ true []).validatedManifest.version 2 ∈
        [ValError.alreadyAtVersion "a" ⟨1, 0, 0⟩ 2] ↔
      SemVer.ltSpec ⟨1, 0, 0⟩
        (mkPackage "a" ⟨1, 0, 0⟩ true []).validatedManifest.version) ∧
    (SemVer.ltSpec (mkPackage "a" ⟨1, 0, 0⟩ true []).validatedManifest.version
        ⟨1, 0, 0⟩ →
      List.all [ValError.alreadyAtVersion "a" ⟨1, 0, 0⟩ 2]
        (fun e =>
          match e with
          | ValError.alreadyAtVersion _ _ _ => false
          | ValError.atGreaterVersion _ _ _ => false
          | _ => true) = true) :=
  c6_monotonic_version projAB [("a", RawDirective.str "1.0.0")] 2 "a"
    (RawDirective.str "1.0.0") (mkPackage "a" ⟨1, 0, 0⟩ true []) ⟨1, 0, 0⟩
    [ValError.alreadyAtVersion "a" ⟨1, 0, 0⟩ 2] (by decide) (by decide)
    (by decide)

/-- Claim C3: a document with three independent problems (an unknown
package, an invalid directive, and a missing major-bump dependent)
yields a single specification error bundling exactly those three error
entries, in document order - validation does not stop at the first
failing entry. -/
theorem c3_aggregate_errors :
    validateReleaseSpecification projABP contentsThreeProblems
        docThreeProblems "spec.yml" =
      ValidationOutcome.specificationError
        [ValError.unknownPackage "ghost" 2,
          ValError.invalidDirective "p" (RawDirective.str "bogus") 3,
          ValError.missingDependents "a" ["b"]] := by decide

/-- Claim C5, as frozen, is false on the code: a parsed document whose
`packages` value is the number 5 (not a mapping) does not trigger the
malformed-document error - the source only tests `isObject` on the
document and `packages !== undefined`. -/
theorem c5_counterexample :
    malformedDocumentCheck
        (some (YamlValue.map [("packages", YamlValue.num 5)])) = false ∧
    YamlValue.isMapping (YamlValue.num 5) = false :=
  ⟨by decide, rfl⟩

/-- Claim C5 (amended): the malformed-document error is thrown exactly
when the document fails to parse, or parses to a non-object, or has no
`packages` key; a `packages` value that is not itself a mapping is not
rejected. -/
theorem c5_malformed_document (parseResult : Option YamlValue) :
    malformedDocumentCheck parseResult = true ↔
      (parseResult = none ∨
        ∃ v, parseResult = some v ∧
          (isObject v = false ∨ hasPackagesKey v = false)) := by
  rcases parseResult with _ | v
  · simp [malformedDocumentCheck]
  · simp [malformedDocumentCheck]

/-- Claim C9, as frozen, is false on the code: for the document
"packages:\n  a: null" (no instructional header at all) the source
attributes line number 2 to the first entry, while the count of leading
instructional lines plus the 1-based ordinal gives 1. -/
theorem c9_counterexample :
    entryLineNumber "packages:\n  a: null" 0 ≠
      claimedEntryLineNumber "packages:\n  a: null" 0 ∧
    entryLineNumber "packages:\n  a: null" 0 = 2 ∧
    claimedEntryLineNumber "packages:\n  a: null" 0 = 1 :=
  ⟨by decide, by decide, by decide⟩

/-- For a template-shaped document ("#" header lines, a blank line,
then "packages:"), the first usable line found by the source is the
blank line, at the index equal to the header length. -/
theorem indexOfFirstUsable_template (header rest : List String)
    (hheader : ∀ line ∈ header, startsWithHash line = true) :
    indexOfFirstUsableLineOfLines (header ++ "" :: "packages:" :: rest) =
      (header.length : Int) := by
  induction header with
  | nil =>
    show jsFindIndex _ ("" :: "packages:" :: rest) = 0
    rw [jsFindIndex]
    simp only [if_pos (show (!isSkippedLine "") = true by decide)]
  | cons l t ih =>
    have hskip : isSkippedLine l = true := by
      simp [isSkippedLine, hheader l (by simp)]
    have iht : jsFindIndex (fun line => !isSkippedLine line)
        (t ++ "" :: "packages:" :: rest) = (t.length : Int) :=
      ih (fun line hl => hheader line (List.mem_cons_of_mem _ hl))
    show jsFindIndex _ (l :: (t ++ "" :: "packages:" :: rest)) = _
    rw [jsFindIndex]
    simp only [hskip, Bool.not_true, if_false, iht]
    have hne : (t.length : Int) ≠ -1 := by omega
    rw [if_neg hne]
    simp only [List.length_cons]
    push_cast
    ring

/-- The count of leading instructional lines of a template-shaped
document is the header length plus one (for the blank line). -/
theorem countInstructional_template (header rest : List String)
    (hheader : ∀ line ∈ header, startsWithHash line = true) :
    countLeadingInstructionalLines (header ++ "" :: "packages:" :: rest) =
      header.length + 1 := by
  induction header with
  | nil =>
    show (List.takeWhile _ ("" :: "packages:" :: rest)).length = 1
    rw [List.takeWhile_cons]
    simp only [if_pos (show isInstructionalLine "" = true by decide)]
    rw [List.takeWhile_cons]
    simp only [if_neg (show ¬isInstructionalLine "packages:" = true by decide)]
    rfl
  | cons l t ih =>
    have hinstr : isInstructionalLine l = true := by
      simp [isInstructionalLine, hheader l (by simp)]
    have iht := ih (fun line hl => hheader line (List.mem_cons_of_mem _ hl))
    show (List.takeWhile _ (l :: (t ++ "" :: "packages:" :: rest))).length = _
    rw [List.takeWhile_cons]
    simp only [hinstr, if_true, List.length_cons]
    rw [show (List.takeWhile isInstructionalLine
        (t ++ "" :: "packages:" :: rest)).length = t.length + 1 from iht]

/-- Claim C9 (amended): for documents shaped like the generated template
(a block of "#" comment lines, a blank line, then "packages:" and the
entries), the attributed line number of the entry at 0-based `index`
equals the count of leading instructional lines plus the 1-based
ordinal; for arbitrary documents the source instead uses the index of
the first line that neither starts with "#" nor contains a space, plus
the 0-based index, plus 2 (see the counterexample). -/
theorem c9_line_numbers (header rest : List String) (index : Nat)
    (hheader : ∀ line ∈ header, startsWithHash line = true) :
    indexOfFirstUsableLineOfLines (header ++ "" :: "packages:" :: rest) +
        ((index : Int) + 2) =
      (countLeadingInstructionalLines
          (header ++ "" :: "packages:" :: rest) : Int) +
        ((index : Int) + 1) := by
  rw [indexOfFirstUsable_template header rest hheader,
    countInstructional_template header rest hheader]
  push_cast
  ring

/-- Witness for the amended claim C9 at a concrete input. -/
theorem c9_line_numbers_witness :
    indexOfFirstUsableLineOfLines (["# x"] ++ "" :: "packages:" :: ["  a: null"]) +
        (((1 : Nat) : Int) + 2) =
      (countLeadingInstructionalLines
          (["# x"] ++ "" :: "packages:" :: ["  a: null"]) : Int) +
        (((1 : Nat) : Int) + 1) :=
  c9_line_numbers ["# x"] ["  a: null"] 1 (by decide)

/-- Entry validation never throws when the entry package is a workspace
package: the only crash site dereferences the missing package. -/
theorem validateEntry_ok_of_known (project : Project)
    (docPackages : List (String × RawDirective)) (ln : Int) (name : String)
    (dir : RawDirective)
    (h : (project.workspacePackages.lookup name).isSome = true) :
    ∃ errs, validateEntry project docPackages ln name dir = Except.ok errs := by
  rcases hres : validateEntry project docPackages ln name dir with c | errs
  · exfalso
    rcases hsv : semverOf dir with _ | v <;>
      rcases hcp : project.workspacePackages.lookup name with _ | pkg <;>
        simp only [validateEntry, hsv, hcp] at hres
    · exact Except.noConfusion hres
    · exact Except.noConfusion hres
    · rw [hcp] at h
      exact Bool.noConfusion h
    · exact Except.noConfusion hres
  · exact ⟨errs, rfl⟩

/-- The error-collection loop never throws when every listed name is a
workspace package. -/
theorem collectErrorsAux_ok_of_known (project : Project)
    (docPackages : List (String × RawDirective)) (firstUsable : Int) :
    ∀ (rem : List (String × RawDirective)) (idx : Nat),
      (∀ e ∈ rem, (project.workspacePackages.lookup e.1).isSome = true) →
      ∃ errs,
        collectErrorsAux project docPackages firstUsable idx rem =
          Except.ok errs := by
  intro rem
  induction rem with
  | nil => exact fun idx _ => ⟨[], rfl⟩
  | cons entry rest ih =>
    intro idx hall
    obtain ⟨l1, h1⟩ :=
      validateEntry_ok_of_known project docPackages
        (firstUsable + (idx : Int) + 2) entry.1 entry.2 (hall entry (by simp))
    obtain ⟨l2, h2⟩ :=
      ih (idx + 1) (fun e he => hall e (List.mem_cons_of_mem _ he))
    exact ⟨l1 ++ l2, by rw [collectErrorsAux, h1, h2]⟩

/-- Claim C10: an entry naming an unknown package with a valid version
string directive makes the validator dereference the undefined package
object, so the run dies with a TypeError instead of the aggregated
specification error; when every listed name is a workspace package, no
crash is possible. -/
theorem c10_type_error_crash :
    (validateReleaseSpecification projAB "packages:\n  ghost: 1.2.3"
        docGhostVersion "spec.yml" =
      ValidationOutcome.crashed JsCrash.typeError) ∧
    (∀ (project : Project) (docPackages : List (String × RawDirective))
        (firstUsable : Int),
      (∀ e ∈ docPackages,
        (project.workspacePackages.lookup e.1).isSome = true) →
      ∃ errs,
        collectErrors project docPackages firstUsable = Except.ok errs) := by
  constructor
  · decide
  · intro project docPackages firstUsable hall
    exact collectErrorsAux_ok_of_known project docPackages firstUsable
      docPackages 0 hall

/-- Witness for the no-crash half of claim C10 at a concrete input. -/
theorem c10_type_error_crash_witness :
    ∃ errs, collectErrors projAB docSuccess 0 = Except.ok errs :=
  c10_type_error_crash.2 projAB docSuccess 0 (by decide)

/-- Claim C8: template generation fails with the empty-release-set error
exactly when no workspace package has changed since its latest release
(producing no document at all), and otherwise lists exactly one entry
per changed workspace package, each initialized to the skip directive. -/
theorem c8_template (project : Project)
    (hnames : (project.workspacePackages.map
        (fun e => e.2.validatedManifest.name)).Nodup) :
    (generateReleaseSpecificationTemplateForMonorepo project =
        Except.error TemplateError.emptyReleaseSet ↔
      ∀ e ∈ project.workspacePackages,
        e.2.hasChangesSinceLatestRelease = false) ∧
    (∀ t, generateReleaseSpecificationTemplateForMonorepo project =
        Except.ok t →
      (∀ e ∈ t.packages, e.2 = RawDirective.skip) ∧
      (∀ name, name ∈ t.packages.map Prod.fst ↔
        ∃ e ∈ project.workspacePackages,
          e.2.hasChangesSinceLatestRelease = true ∧
          e.2.validatedManifest.name = name) ∧
      (t.packages.map Prod.fst).Nodup) := by
  constructor
  · by_cases hlen : (changedWorkspacePackages project).length = 0
    · have herr : generateReleaseSpecificationTemplateForMonorepo project =
          Except.error TemplateError.emptyReleaseSet := by
        unfold generateReleaseSpecificationTemplateForMonorepo
        rw [if_pos hlen]
      rw [herr]
      simp only [true_iff]
      intro e he
      have hnil : changedWorkspacePackages project = [] :=
        List.length_eq_zero.mp hlen
      unfold changedWorkspacePackages at hnil
      have := List.filter_eq_nil_iff.mp hnil e he
      simpa using this
    · have hok : generateReleaseSpecificationTemplateForMonorepo project =
          Except.ok
            ⟨(changedWorkspacePackages project).map
              (fun e => (e.2.validatedManifest.name, RawDirective.skip))⟩ := by
        unfold generateReleaseSpecificationTemplateForMonorepo
        rw [if_neg hlen]
      rw [hok]
      constructor
      · intro h
        exact Except.noConfusion h
      · intro hall
        exfalso
        apply hlen
        rw [List.length_eq_zero]
        unfold changedWorkspacePackages
        rw [List.filter_eq_nil_iff]
        intro a ha
        simp [hall a ha]
  · intro t ht
    unfold generateReleaseSpecificationTemplateForMonorepo at ht
    split_ifs at ht with hlen
    · simp only [Except.ok.injEq] at ht
      subst ht
      refine ⟨?_, ?_, ?_⟩
      · intro e he
        simp only [List.mem_map] at he
        obtain ⟨a, -, rfl⟩ := he
        rfl
      · intro name
        simp only [List.map_map, List.mem_map]
        unfold changedWorkspacePackages
        constructor
        · rintro ⟨a, ha, rfl⟩
          have h2 := List.mem_filter.mp ha
          exact ⟨a, h2.1, h2.2, rfl⟩
        · rintro ⟨e, he, hch, rfl⟩
          exact ⟨e, List.mem_filter.mpr ⟨he, hch⟩, rfl⟩
      · rw [List.map_map]
        have hsub : ((changedWorkspacePackages project).map
            (fun e => e.2.validatedManifest.name)).Sublist
            (project.workspacePackages.map
              (fun e => e.2.validatedManifest.name)) := by
          unfold changedWorkspacePackages
          exact (List.filter_sublist _).map _
        exact hnames.sublist hsub

/-- Witness for claim C8 at a concrete input. -/
theorem c8_template_witness :
    (generateReleaseSpecificationTemplateForMonorepo projAB =
        Except.error TemplateError.emptyReleaseSet ↔
      ∀ e ∈ projAB.workspacePackages,
        e.2.hasChangesSinceLatestRelease = false) ∧
    (∀ t, generateReleaseSpecificationTemplateForMonorepo projAB =
        Except.ok t →
      (∀ e ∈ t.packages, e.2 = RawDirective.skip) ∧
      (∀ name, name ∈ t.packages.map Prod.fst ↔
        ∃ e ∈ projAB.workspacePackages,
          e.2.hasChangesSinceLatestRelease = true ∧
          e.2.validatedManifest.name = name) ∧
      (t.packages.map Prod.fst).Nodup) :=
  c8_template projAB (by decide)

/-- The unknown-package check is silent exactly for known packages. -/
theorem unknownErrorsFor_eq_nil {project : Project} {name : String}
    {ln : Int} :
    unknownErrorsFor project name ln = [] ↔
      (project.workspacePackages.lookup name).isSome = true := by
  unfold unknownErrorsFor
  rcases h : project.workspacePackages.lookup name with _ | pkg <;> simp [h]

/-- The invalid-directive check is silent exactly for well-formed
directives. -/
theorem invalidErrorsFor_eq_nil {name : String} {dir : RawDirective}
    {ln : Int} :
    invalidErrorsFor name dir ln = [] ↔
      (dir = RawDirective.skip ∨
        dir = RawDirective.str INTENTIONALLY_SKIP_PACKAGE_DIRECTIVE ∨
        isBumpKind dir = true ∨ isValidSemverDirective dir = true) := by
  unfold invalidErrorsFor
  split_ifs with hcond
  · obtain ⟨h1, h2, h3, h4⟩ := hcond
    simp [h1, h2, h3, h4]
  · simp only [eq_self_iff_true, true_iff]
    by_contra hneg
    push_neg at hneg
    obtain ⟨g1, g2, g3, g4⟩ := hneg
    exact hcond ⟨g1, g2, by simpa using g3, by simpa using g4⟩

/-- The explicit-version comparison check is silent exactly for versions
strictly above the current one. -/
theorem compareErrorsFor_eq_nil {name : String} {v : SemVer} {pkg : Package}
    {ln : Int} :
    compareErrorsFor name v pkg ln = [] ↔
      0 < SemVer.compare v pkg.validatedManifest.version := by
  unfold compareErrorsFor
  split_ifs with h1 h2 <;> simp <;> omega

/-- What an entry that produced no error at all guarantees: the package
is known, the directive is well-formed, and an explicit version compares
strictly above the current version. -/
theorem validateEntry_ok_nil_facts (project : Project)
    (docPackages : List (String × RawDirective)) (ln : Int) (name : String)
    (dir : RawDirective)
    (h : validateEntry project docPackages ln name dir = Except.ok []) :
    (project.workspacePackages.lookup name).isSome = true ∧
    (dir = RawDirective.skip ∨
      dir = RawDirective.str INTENTIONALLY_SKIP_PACKAGE_DIRECTIVE ∨
      isBumpKind dir = true ∨ isValidSemverDirective dir = true) ∧
    (∀ v pkg, semverOf dir = some v →
      project.workspacePackages.lookup name = some pkg →
      0 < SemVer.compare v pkg.validatedManifest.version) := by
  rcases hsv : semverOf dir with _ | v <;>
    rcases hcp : project.workspacePackages.lookup name with _ | pkg <;>
      simp only [validateEntry, hsv, hcp, Except.ok.injEq] at h
  · rw [List.append_eq_nil, List.append_eq_nil, List.append_eq_nil] at h
    obtain ⟨⟨⟨ha, -⟩, -⟩, -⟩ := h
    rw [unknownErrorsFor_eq_nil, hcp] at ha
    exact Bool.noConfusion ha
  · rw [List.append_eq_nil, List.append_eq_nil, List.append_eq_nil] at h
    obtain ⟨⟨⟨-, hb⟩, -⟩, -⟩ := h
    refine ⟨rfl, invalidErrorsFor_eq_nil.mp hb, ?_⟩
    intro v' pkg' hv' _
    exact Option.noConfusion hv'
  · exact Except.noConfusion h
  · rw [List.append_eq_nil, List.append_eq_nil, List.append_eq_nil,
      List.append_eq_nil] at h
    obtain ⟨⟨⟨⟨-, hb⟩, hc⟩, -⟩, -⟩ := h
    refine ⟨rfl, invalidErrorsFor_eq_nil.mp hb, ?_⟩
    intro v' pkg' hv' hcp'
    obtain rfl : v = v' := Option.some.inj hv'
    obtain rfl : pkg = pkg' := Option.some.inj hcp'
    exact compareErrorsFor_eq_nil.mp hc

/-- If the collection loop returned no error at all, every entry of the
remaining list validated silently at some line number. -/
theorem collectErrorsAux_ok_nil (project : Project)
    (docPackages : List (String × RawDirective)) (firstUsable : Int) :
    ∀ (rem : List (String × RawDirective)) (idx : Nat),
      collectErrorsAux project docPackages firstUsable idx rem =
        Except.ok [] →
      ∀ nm d, (nm, d) ∈ rem →
        ∃ ln, validateEntry project docPackages ln nm d = Except.ok [] := by
  intro rem
  induction rem with
  | nil =>
    intro idx _ nm d hmem
    cases hmem
  | cons entry rest ih =>
    intro idx h nm d hmem
    rw [collectErrorsAux] at h
    rcases h1 : validateEntry project docPackages
        (firstUsable + (idx : Int) + 2) entry.1 entry.2 with c | l1
    · rw [h1] at h
      exact Except.noConfusion h
    · rw [h1] at h
      rcases h2 : collectErrorsAux project docPackages firstUsable (idx + 1)
          rest with c | l2
      · rw [h2] at h
        exact Except.noConfusion h
      · rw [h2] at h
        simp only [Except.ok.injEq, List.append_eq_nil] at h
        obtain ⟨hl1, hl2⟩ := h
        rcases List.mem_cons.mp hmem with heq | htail
        · refine ⟨firstUsable + (idx : Int) + 2, ?_⟩
          have hnm : entry.1 = nm := congrArg Prod.fst heq.symm
          have hd : entry.2 = d := congrArg Prod.snd heq.symm
          rw [← hnm, ← hd, h1, hl1]
        · exact ih (idx + 1) (by rw [h2, hl2]) nm d htail

/-- Unfolding membership in the converted `packages` mapping of the
success path. -/
theorem mem_buildReleaseSpecification :
    ∀ (doc : List (String × RawDirective)) (nm : String) (val : SpecValue),
      (nm, val) ∈ buildReleaseSpecification doc →
      ∃ dir, (nm, dir) ∈ doc ∧ dir ≠ RawDirective.skip ∧
        dir ≠ RawDirective.str INTENTIONALLY_SKIP_PACKAGE_DIRECTIVE ∧
        ((isBumpKind dir = true ∧ ∃ part, val = SpecValue.bump part) ∨
          (∃ v, semverOf dir = some v ∧ val = SpecValue.exact v) ∨
          (isBumpKind dir = false ∧ semverOf dir = none ∧
            val = SpecValue.invalidCast)) := by
  intro doc
  induction doc with
  | nil =>
    intro nm val h
    cases h
  | cons entry rest ih =>
    intro nm val h
    rcases entry with ⟨pn, dir⟩
    rcases dir with _ | s
    · rw [buildReleaseSpecification] at h
      obtain ⟨d, hd, h2⟩ := ih nm val h
      exact ⟨d, List.mem_cons_of_mem _ hd, h2⟩
    · rw [buildReleaseSpecification] at h
      by_cases hik : s = INTENTIONALLY_SKIP_PACKAGE_DIRECTIVE
      · rw [if_pos hik] at h
        obtain ⟨d, hd, h2⟩ := ih nm val h
        exact ⟨d, List.mem_cons_of_mem _ hd, h2⟩
      · rw [if_neg hik] at h
        by_cases hbk : s = "major" ∨ s = "minor" ∨ s = "patch"
        · rw [if_pos hbk] at h
          rcases List.mem_cons.mp h with heq | htail
          · injection heq with hnm hval
            subst hnm
            subst hval
            exact ⟨RawDirective.str s, List.mem_cons_self _ _, by simp,
              by simp [hik], Or.inl ⟨by simp [isBumpKind, hbk], bumpOf s, rfl⟩⟩
          · obtain ⟨d, hd, h2⟩ := ih nm val htail
            exact ⟨d, List.mem_cons_of_mem _ hd, h2⟩
        · rw [if_neg hbk] at h
          push_neg at hbk
          obtain ⟨hb1, hb2, hb3⟩ := hbk
          rcases hps : parseSemver s with _ | v <;> rw [hps] at h <;>
            rcases List.mem_cons.mp h with heq | htail
          · injection heq with hnm hval
            subst hnm
            subst hval
            exact ⟨RawDirective.str s, List.mem_cons_self _ _, by simp,
              by simp [hik],
              Or.inr (Or.inr ⟨by simp [isBumpKind, hb1, hb2, hb3],
                by simpa [semverOf] using hps, rfl⟩)⟩
          · obtain ⟨d, hd, h2⟩ := ih nm val htail
            exact ⟨d, List.mem_cons_of_mem _ hd, h2⟩
          · injection heq with hnm hval
            subst hnm
            subst hval
            exact ⟨RawDirective.str s, List.mem_cons_self _ _, by simp,
              by simp [hik],
              Or.inr (Or.inl ⟨v, by simpa [semverOf] using hps, rfl⟩)⟩
          · obtain ⟨d, hd, h2⟩ := ih nm val htail
            exact ⟨d, List.mem_cons_of_mem _ hd, h2⟩

/-- In an association list with unique keys, membership determines the
lookup result. -/
theorem lookup_eq_some_of_mem_of_nodup {α β : Type} [BEq α] [LawfulBEq α] :
    ∀ {l : List (α × β)} {k : α} {b : β},
      (l.map Prod.fst).Nodup → (k, b) ∈ l → l.lookup k = some b := by
  intro l
  induction l with
  | nil =>
    intro k b _ hmem
    cases hmem
  | cons entry rest ih =>
    intro k b hnodup hmem
    rcases entry with ⟨k0, b0⟩
    simp only [List.map_cons, List.nodup_cons] at hnodup
    obtain ⟨hk0, hrest⟩ := hnodup
    rcases List.mem_cons.mp hmem with heq | htail
    · injection heq with h1 h2
      subst h1
      subst h2
      simp [List.lookup]
    · have hne : ¬(k == k0) = true := by
        intro hbeq
        have : k = k0 := eq_of_beq hbeq
        subst this
        exact hk0 (List.mem_map.mpr ⟨(k, b), htail, rfl⟩)
      simp only [List.lookup]
      rw [Bool.eq_false_iff.mpr hne]
      exact ih hrest htail

/-- Claim C7: every release specification produced on the success path
contains only entries whose raw directive was neither null nor
"intentionally-skip", names only workspace packages, and maps each name
to a bump kind or to a parsed version strictly greater than that
package's current version. -/
theorem c7_invariants (project : Project) (contents : String)
    (docPackages : List (String × RawDirective)) (path : String)
    (spec : ReleaseSpecification)
    (hnodup : (docPackages.map Prod.fst).Nodup)
    (hok : validateReleaseSpecification project contents docPackages path =
      ValidationOutcome.ok spec) :
    ∀ name val, (name, val) ∈ spec.packages →
      (∃ dir, docPackages.lookup name = some dir ∧
        dir ≠ RawDirective.skip ∧
        dir ≠ RawDirective.str INTENTIONALLY_SKIP_PACKAGE_DIRECTIVE) ∧
      (∃ pkg, project.workspacePackages.lookup name = some pkg ∧
        ((∃ part, val = SpecValue.bump part) ∨
          (∃ v, val = SpecValue.exact v ∧
            0 < SemVer.compare v pkg.validatedManifest.version))) := by
  unfold validateReleaseSpecification at hok
  rcases hcol : collectErrors project docPackages
      (indexOfFirstUsableLine contents) with c | errs
  · rw [hcol] at hok
    exact ValidationOutcome.noConfusion hok
  rcases errs with _ | ⟨e, rest⟩
  case cons =>
    rw [hcol] at hok
    exact ValidationOutcome.noConfusion hok
  rw [hcol] at hok
  have hspec : spec =
      { packages := buildReleaseSpecification docPackages, path := path } :=
    (ValidationOutcome.ok.inj hok).symm
  subst hspec
  intro name val hmem
  obtain ⟨dir, hdirmem, hskip, hiskip, hshape⟩ :=
    mem_buildReleaseSpecification docPackages name val hmem
  have hlookupdoc : docPackages.lookup name = some dir :=
    lookup_eq_some_of_mem_of_nodup hnodup hdirmem
  obtain ⟨ln, hentry⟩ :=
    collectErrorsAux_ok_nil project docPackages
      (indexOfFirstUsableLine contents) docPackages 0 hcol name dir hdirmem
  obtain ⟨hknown, hwf, hcmp⟩ :=
    validateEntry_ok_nil_facts project docPackages ln name dir hentry
  refine ⟨⟨dir, hlookupdoc, hskip, hiskip⟩, ?_⟩
  rcases hpk : project.workspacePackages.lookup name with _ | pkg
  · rw [hpk] at hknown
    exact Bool.noConfusion hknown
  refine ⟨pkg, rfl, ?_⟩
  rcases hshape with ⟨-, part, hval⟩ | ⟨v, hsem, hval⟩ | ⟨hbk, hsem, hval⟩
  · exact Or.inl ⟨part, hval⟩
  · exact Or.inr ⟨v, hval, hcmp v pkg hsem hpk⟩
  · exfalso
    rcases hwf with h1 | h2 | h3 | h4
    · exact hskip h1
    · exact hiskip h2
    · rw [hbk] at h3
      exact Bool.noConfusion h3
    · rw [isValidSemverDirective, hsem] at h4
      exact Bool.noConfusion h4

/-- Witness for claim C7 at a concrete input. -/
theorem c7_invariants_witness :
    (∃ dir, docSuccess.lookup "a" = some dir ∧
      dir ≠ RawDirective.skip ∧
      dir ≠ RawDirective.str INTENTIONALLY_SKIP_PACKAGE_DIRECTIVE) ∧
    (∃ pkg, projAB.workspacePackages.lookup "a" = some pkg ∧
      ((∃ part, SpecValue.exact ⟨1, 0, 1⟩ = SpecValue.bump part) ∨
        (∃ v, SpecValue.exact (⟨1, 0, 1⟩ : SemVer) = SpecValue.exact v ∧
          0 < SemVer.compare v pkg.validatedManifest.version))) :=
  c7_invariants projAB contentsSuccess docSuccess "spec.yml"
    { packages := buildReleaseSpecification docSuccess, path := "spec.yml" }
    (by decide) (by decide) "a" (SpecValue.exact ⟨1, 0, 1⟩) (by decide)

end CreateReleaseBranch
